import Mathlib

/-!
Verification of the pkpass identity trust store and recipient-resolution
engine (libpkpass/identities.py and libpkpass/commands/command.py), as a
shallow embedding: Python dicts become association lists with first-match
lookup, the filesystem becomes an explicit directory-listing map, the
external crypto and pem collaborators become function parameters, and
raised exceptions become explicit error values (with the partial mutations
that happen before a raise made visible in the returned state).
-/

namespace Pkpass

/-- Python str.split(sep) on a list of characters: always returns at least
one (possibly empty) chunk, and a separator at either end yields an empty
chunk, exactly like the Python method. -/
def pySplitChar (sep : Char) : List Char → List (List Char)
  | [] => [[]]
  | c :: rest =>
    match pySplitChar sep rest with
    | [] => [[]]
    | h :: t => if c = sep then [] :: h :: t else (c :: h) :: t

/-- Python str.split(sep). -/
def pySplit (sep : Char) (s : String) : List String :=
  (pySplitChar sep s.data).map String.mk

/-- Python str.strip() on a list of characters: drop leading whitespace,
then drop trailing whitespace (via reverse). -/
def pyStripList (l : List Char) : List Char :=
  ((l.dropWhile Char.isWhitespace).reverse.dropWhile Char.isWhitespace).reverse

/-- Python str.strip(): remove leading and trailing whitespace. -/
def pyStrip (s : String) : String := String.mk (pyStripList s.data)

/-- Python str.endswith(suffix). -/
def str_endswith (s suf : String) : Bool := suf.data.isSuffixOf s.data

/-- Boolean check that a string has neither a leading nor a trailing
whitespace character. -/
def no_edge_whitespace (s : String) : Bool :=
  (match s.data.head? with
   | none => true
   | some c => !c.isWhitespace)
  && (match s.data.getLast? with
      | none => true
      | some c => !c.isWhitespace)

/-- Python dict assignment d[k] = v on an association list: replace the
first binding of k in place, or append a new binding if k is absent. -/
def dictSet {α : Type} (k : String) (v : α) : List (String × α) → List (String × α)
  | [] => [(k, v)]
  | p :: rest => if p.1 == k then (k, v) :: rest else p :: dictSet k v rest

/-- Python del d[k] on an association list. -/
def eraseKey {α : Type} (k : String) (m : List (String × α)) : List (String × α) :=
  m.filter (fun p => p.1 != k)

/-- Errors raised by the modelled code paths.  CliArgumentError carries its
message string, because the source distinguishes the unknown-recipient and
unknown-operator failures only by the message text.  (The single quotes the
source puts around the interpolated name are omitted from the messages.) -/
inductive PkErr where
  | fileOpenError (path msg : String)
  | cliArgumentError (msg : String)
  | nullRecipientError
  | groupDefinitionError (key : String)
  | typeError (msg : String)
  deriving DecidableEq, Repr

/-- Message of the CliArgumentError raised by IdentityDB.verify_identity
and by Command._validate_identities for an unknown recipient. -/
def recipientNotInDbMsg (r : String) : String :=
  "Error: Recipient " ++ r ++ " is not in the recipient database"

/-- Message of the CliArgumentError raised by Command._validate_identities
when the operator identity is missing from the store. -/
def userNotInDbMsg (u : String) : String :=
  "Error: Your user " ++ u ++ " is not in the recipient database"

/-- Message of the built-in TypeError Python raises when
IdentityDB.verify_identity, whose second positional parameter results has
no default, is called with a single argument (the quotes Python puts
around the parameter name are omitted). -/
def verifyIdentityArityMsg : String :=
  "verify_identity() missing 1 required positional argument: results"

/-- One entry of the cert_dict list built by verify_identity. -/
structure CertRecord where
  cert_bytes : String
  verified : Bool
  fingerprint : String
  subject : String
  issuer : String
  enddate : String
  issuerhash : String
  subjecthash : String
  deriving DecidableEq, Repr

/-- One record of IdentityDB.iddb.  The Python record is a dict whose keys
appear as the code adds them; absent keys are modelled as none. -/
structure Identity where
  uid : String
  certificate_path : Option String := none
  key_path : Option String := none
  cabundle : Option String := none
  certs : Option (List CertRecord) := none
  deriving DecidableEq, Repr

/-- The IdentityDB object: the store-wide CA bundle and the uid-keyed
mapping of identity records. -/
structure IdentityDB where
  cabundle : String
  iddb : List (String × Identity)
  deriving DecidableEq, Repr

/-- The abstract crypto collaborator (libpkpass.crypto), out of scope of
the core: pure functions from certificate bytes (and the CA bundle path)
to derived values. -/
structure Crypto where
  pk_verify_chain : String → String → Bool
  get_cert_fingerprint : String → String
  get_cert_subject : String → String
  get_cert_issuer : String → String
  get_cert_enddate : String → String
  get_cert_issuerhash : String → String
  get_cert_subjecthash : String → String

/-- The filesystem visible to the store: a map from directory path to the
ordered list of file names it holds (os.listdir order). -/
structure FS where
  dirs : List (String × List String)
  deriving DecidableEq, Repr

/-- os.listdir, also serving as the os.path.exists / os.path.isdir test
for directories. -/
def FS.listdir (fs : FS) (p : String) : Option (List String) :=
  fs.dirs.lookup p

/-- os.makedirs: create an empty directory (call sites guard on absence). -/
def FS.mkdirs (fs : FS) (p : String) : FS :=
  ⟨dictSet p [] fs.dirs⟩

/-- open(..., w).write: record the file name in its directory listing
(file contents are irrelevant to the modelled properties; certificate
bytes flow through the abstract parse_file collaborator instead). -/
def FS.write_file (fs : FS) (dir fname : String) : FS :=
  match fs.dirs.lookup dir with
  | some files => ⟨dictSet dir (if fname ∈ files then files else files ++ [fname]) fs.dirs⟩
  | none => ⟨dictSet dir [fname] fs.dirs⟩

/-- os.path.join for a directory and a file name. -/
def path_join (a b : String) : String := a ++ "/" ++ b

/-- Value type of the IdentityDB.extensions dict: the certificate entry is
a list of strings, the key entry a single string. -/
inductive ExtVal where
  | strs (l : List String)
  | str (s : String)
  deriving DecidableEq, Repr

/-- The extensions dict set in IdentityDB.init. -/
def extensions : String → Option ExtVal
  | "certificate" => some (ExtVal.strs [".cert", ".crt"])
  | "key" => some (ExtVal.str ".key")
  | _ => none

/-- Python tuple(x) as applied to an extensions value: a list stays as is,
while tuple of a string is the tuple of its single-character strings, so
tuple of .key is (., k, e, y) - faithful to the source quirk. -/
def tupleOfExt : ExtVal → List String
  | ExtVal.strs l => l
  | ExtVal.str s => s.data.map (fun c => String.mk [c])

/-- The fname.endswith(tuple(self.extensions[filetype])) test of
_load_from_directory. -/
def matches_ext (fname ftype : String) : Bool :=
  match extensions ftype with
  | none => false
  | some e => (tupleOfExt e).any (fun suf => str_endswith fname suf)

/-- The uid derived by _load_from_directory: fname.split(.)[0], the part
of the file name before the first dot. -/
def uid_of (fname : String) : String :=
  (pySplit '.' fname).headD ""

/-- Write the path field named by the filetype (the dynamic
"%s_path" % filetype dict key of the source; only these two filetypes
occur in the source). -/
def set_type_path (ftype : String) (r : Identity) (filepath : String) : Identity :=
  match ftype with
  | "certificate" => { r with certificate_path := some filepath }
  | "key" => { r with key_path := some filepath }
  | _ => r

/-- Read the path field named by the filetype. -/
def type_path (ftype : String) (r : Identity) : Option String :=
  match ftype with
  | "certificate" => r.certificate_path
  | "key" => r.key_path
  | _ => none

/-- A fresh identity record as created by _load_from_directory on a
KeyError: only the uid and the one path key are present. -/
def new_identity (uid : String) : Identity :=
  { uid := uid }

/-- The loop body of _load_from_directory for one directory entry: if the
name matches the filetype extensions, upsert the identity keyed by the
part of the name before the first dot, writing only that filetype path
(existing record kept, or a fresh record created). -/
def process_file (path ftype : String) (iddb : List (String × Identity)) (fname : String) :
    List (String × Identity) :=
  if matches_ext fname ftype then
    let uid := uid_of fname
    let filepath := path_join path fname
    match iddb.lookup uid with
    | some r => dictSet uid (set_type_path ftype r filepath) iddb
    | none => dictSet uid (set_type_path ftype (new_identity uid) filepath) iddb
  else iddb

/-- IdentityDB._load_from_directory: list the directory (OSError becomes
FileOpenError) and fold the per-file upsert over the listing in order. -/
def _load_from_directory (fs : FS) (path ftype : String) (db : IdentityDB) :
    IdentityDB × Option PkErr :=
  match fs.listdir path with
  | none => (db, some (PkErr.fileOpenError path "No such file or directory"))
  | some files => ({ db with iddb := files.foldl (process_file path ftype) db.iddb }, none)

/-- IdentityDB.load_keys_from_directory: load key paths only if the
directory exists; silently do nothing otherwise. -/
def load_keys_from_directory (fs : FS) (path : String) (db : IdentityDB) :
    IdentityDB × Option PkErr :=
  if (fs.listdir path).isSome then _load_from_directory fs path "key" db else (db, none)

/-- The cert_dict built for one parsed certificate inside verify_identity:
each derived field comes from the crypto collaborator, and the chain is
checked against the cabundle just written onto the record. -/
def mkCertDict (crypto : Crypto) (cab : String) (cert : String) : CertRecord :=
  { cert_bytes := cert
    verified := crypto.pk_verify_chain cert cab
    fingerprint := crypto.get_cert_fingerprint cert
    subject := crypto.get_cert_subject cert
    issuer := crypto.get_cert_issuer cert
    enddate := crypto.get_cert_enddate cert
    issuerhash := crypto.get_cert_issuerhash cert
    subjecthash := crypto.get_cert_subjecthash cert }

/-- The record-level effect of verify_identity on one identity record:
the cabundle is written and certs reset to empty first; then, if a
certificate path is present, certs is recomputed from the parsed file
(the Bool is false exactly when the KeyError on certificate_path fires,
leaving the partial mutation in place). -/
def verify_record (crypto : Crypto) (parse_file : String → List String) (cab : String)
    (r : Identity) : Identity × Bool :=
  let r1 := { r with cabundle := some cab, certs := some ([] : List CertRecord) }
  match r.certificate_path with
  | none => (r1, false)
  | some path =>
      ({ r1 with certs := some ((parse_file path).map (mkCertDict crypto cab)) }, true)

/-- IdentityDB.verify_identity: an absent identity raises the recipient
CliArgumentError with no mutation (the KeyError fires on the first lookup);
a present identity first gets cabundle written and certs reset, then either
the recomputed certs (success) or the same CliArgumentError when the
certificate_path key is missing, with the partial mutation kept. -/
def verify_identity (crypto : Crypto) (parse_file : String → List String)
    (db : IdentityDB) (ident : String) : IdentityDB × Option PkErr :=
  match db.iddb.lookup ident with
  | none => (db, some (PkErr.cliArgumentError (recipientNotInDbMsg ident)))
  | some r =>
    let vr := verify_record crypto parse_file db.cabundle r
    ({ db with iddb := dictSet ident vr.1 db.iddb },
     if vr.2 then none else some (PkErr.cliArgumentError (recipientNotInDbMsg ident)))

/-- The verify_on_load thread fan-out of load_certs_from_directory: one
thread per identity key runs verify_identity and all are joined before
returning.  Each worker writes only its own identity record (the store
cabundle is only read), so the concurrent execution is equivalent to this
sequential fold over the key list; a worker that raises dies silently
(Python Thread reports nothing to join), so every error is discarded. -/
def verify_all_threads (crypto : Crypto) (parse_file : String → List String)
    (db : IdentityDB) : IdentityDB :=
  (db.iddb.map Prod.fst).foldl (fun d k => (verify_identity crypto parse_file d k).1) db

/-- The cache-directory existence/creation step of
_load_certs_from_external (os.path.exists guard plus os.makedirs). -/
def ensure_dir (fs : FS) (p : String) : FS :=
  if (fs.listdir p).isSome then fs else fs.mkdirs p

/-- The not os.listdir(dirname) emptiness test of
_load_certs_from_external. -/
def cache_is_empty (fs : FS) (p : String) : Bool :=
  ((fs.listdir p).getD []).isEmpty

/-- One iteration of the connector loop in _load_certs_from_external,
acting on a (connector name, connection value) entry.  The accumulator
carries the store, the filesystem, the trace of connector names actually
invoked (modelling the dynamically imported connector call), and a raised
error (which short-circuits the remaining iterations).  The connector
collaborator list_certificates maps (name, value) to the name-to-certlist
mapping it returns; its results are written to the cache directory as
name.cert files, and the cache directory is then always loaded as a local
certificate directory. -/
def _external_entry_step (list_certificates : String → String → List (String × List String))
    (nocache : Bool) (temp_dir : String)
    (acc : IdentityDB × FS × List String × Option PkErr) (kv : String × String) :
    IdentityDB × FS × List String × Option PkErr :=
  match acc with
  | (db, fs, trace, some e) => (db, fs, trace, some e)
  | (db, fs, trace, none) =>
    let dirname := path_join temp_dir kv.1
    let fs1 := ensure_dir fs dirname
    if nocache || cache_is_empty fs1 dirname then
      let certs := list_certificates kv.1 kv.2
      let fs2 := certs.foldl (fun f nc => f.write_file dirname (nc.1 ++ ".cert")) fs1
      let r := _load_from_directory fs2 dirname "certificate" db
      (r.1, fs2, trace ++ [kv.1], r.2)
    else
      let r := _load_from_directory fs1 dirname "certificate" db
      (r.1, fs1, trace, r.2)

/-- IdentityDB._load_certs_from_external: resolve the temp root (a truthy
base_directory entry is used and deleted from the map, otherwise
tempfile.gettempdir is used and the map is left alone), then run the
connector loop over the remaining entries in order. -/
def _load_certs_from_external (list_certificates : String → String → List (String × List String))
    (connection_map : List (String × String)) (nocache : Bool) (gettempdir : String)
    (db : IdentityDB) (fs : FS) : IdentityDB × FS × List String × Option PkErr :=
  let tm : String × List (String × String) :=
    match connection_map.lookup "base_directory" with
    | some v => if v = "" then (gettempdir, connection_map)
                else (v, eraseKey "base_directory" connection_map)
    | none => (gettempdir, connection_map)
  tm.2.foldl (_external_entry_step list_certificates nocache tm.1) (db, fs, [], none)

/-- IdentityDB.load_certs_from_directory: run the external-connector load
when the connect map is truthy, then load certpath when truthy, then - for
verify_on_load - fan out the verification threads and join them.  A raised
error from either load step propagates immediately; the returned trace of
the thread step carries no error because the workers swallow theirs. -/
def load_certs_from_directory (crypto : Crypto) (parse_file : String → List String)
    (list_certificates : String → String → List (String × List String))
    (db : IdentityDB) (fs : FS) (certpath : Option String) (verify_on_load : Bool)
    (connectmap : Option (List (String × String))) (nocache : Bool) (gettempdir : String) :
    IdentityDB × FS × Option PkErr :=
  let ext : IdentityDB × FS × Option PkErr :=
    match connectmap with
    | some m =>
        if m.isEmpty then (db, fs, none)
        else
          let r := _load_certs_from_external list_certificates m nocache gettempdir db fs
          (r.1, r.2.1, r.2.2.2)
    | none => (db, fs, none)
  match ext with
  | (db1, fs1, some e) => (db1, fs1, some e)
  | (db1, fs1, none) =>
    let loc : IdentityDB × Option PkErr :=
      match certpath with
      | some p => if p = "" then (db1, none) else _load_from_directory fs1 p "certificate" db1
      | none => (db1, none)
    match loc with
    | (db2, some e) => (db2, fs1, some e)
    | (db2, none) =>
      if verify_on_load then (verify_all_threads crypto parse_file db2, fs1, none)
      else (db2, fs1, none)

/-- The loop of Command._parse_group_membership over the already-split
group names: each group name is stripped and looked up as a configuration
key (self.args); a missing key raises GroupDefinitionError at that group,
and a found value contributes its comma-split members in order. -/
def parse_groups_list (config : String → Option String) :
    List String → Except PkErr (List String)
  | [] => Except.ok []
  | g :: rest =>
    match config (pyStrip g) with
    | none => Except.error (PkErr.groupDefinitionError (pyStrip g))
    | some members =>
      match parse_groups_list config rest with
      | Except.error e => Except.error e
      | Except.ok tail => Except.ok (pySplit ',' members ++ tail)

/-- Command._parse_group_membership: split the groups string on commas and
run the lookup loop. -/
def _parse_group_membership (config : String → Option String) (groups : String) :
    Except PkErr (List String) :=
  parse_groups_list config (pySplit ',' groups)

/-- The raw recipient entries accumulated by _build_recipient_list before
the set/strip step: the (already split) escrow users, then the expanded
group members when a groups argument is present, then the comma-split
users when a users argument is present. -/
def raw_recipient_entries (escrow_users : List String) (groups users : Option String)
    (config : String → Option String) : Except PkErr (List String) :=
  match (match groups with
         | some g =>
           match _parse_group_membership config g with
           | Except.error e => Except.error e
           | Except.ok m => Except.ok (escrow_users ++ m)
         | none => Except.ok escrow_users : Except PkErr (List String)) with
  | Except.error e => Except.error e
  | Except.ok l1 =>
    match users with
    | some u => Except.ok (l1 ++ pySplit ',' u)
    | none => Except.ok l1

/-- The list(set(...)) then strip step of _build_recipient_list:
deduplicate the raw entries (set semantics - each distinct raw string
survives exactly once; the model keeps a deterministic order where Python
iterates its set in an unspecified order), then strip every surviving
entry.  Note the source deduplicates BEFORE stripping. -/
def resolved_recipients (raw : List String) : List String :=
  raw.dedup.map pyStrip

/-- Command._build_recipient_list: accumulate the raw entries, deduplicate
and strip them, and raise NullRecipientError if any resulting entry is the
empty string.  (The enclosing except-KeyError of the source only matters
for commands with no user arguments at all and is not reachable from the
modelled inputs.) -/
def _build_recipient_list (escrow_users : List String) (groups users : Option String)
    (config : String → Option String) : Except PkErr (List String) :=
  match raw_recipient_entries escrow_users groups users config with
  | Except.error e => Except.error e
  | Except.ok raw =>
    let resolved := resolved_recipients raw
    if "" ∈ resolved then Except.error PkErr.nullRecipientError else Except.ok resolved

/-- The per-recipient loop of Command._validate_identities.  The source
writes self.identities.verify_identity(recipient) with a single argument,
but IdentityDB.verify_identity requires the second positional parameter
results (it has no default; only the Thread call site passes it), so on
the FIRST iteration - for any non-empty recipient list, whether the
recipient is present in the store or not - Python raises TypeError at
argument binding, before the body of verify_identity runs and before any
store lookup or mutation.  The membership check below the call, which
would raise the recipient CliArgumentError, is therefore unreachable. -/
def _validate_recipients_loop (db : IdentityDB) :
    List String → IdentityDB × Option PkErr
  | [] => (db, none)
  | _ :: _ => (db, some (PkErr.typeError verifyIdentityArityMsg))

/-- Command._validate_identities: run the recipient loop (whose raised
error propagates), and only once it finishes without raising check that
the operator identity itself is in the store, raising the Your-user
CliArgumentError otherwise.  Because of the arity TypeError in the loop,
the operator check is reachable only with an empty recipient list. -/
def _validate_identities (db : IdentityDB) (recipients : List String) (opId : String) :
    IdentityDB × Option PkErr :=
  match _validate_recipients_loop db recipients with
  | (db1, some e) => (db1, some e)
  | (db1, none) =>
    if (db1.iddb.lookup opId).isSome then (db1, none)
    else (db1, some (PkErr.cliArgumentError (userNotInDbMsg opId)))

/-- Command.run sequences _run_command_setup (whose last step is
_validate_identities) before _run_command_execution, so a validation error
aborts the command before any downstream cryptographic operation.  The
Bool records whether execution was reached. -/
def command_run (db : IdentityDB) (recipients : List String) (opId : String) :
    (IdentityDB × Option PkErr) × Bool :=
  let v := _validate_identities db recipients opId
  (v, v.2.isNone)

/-! ### Concrete collaborators and fixtures used by witnesses -/

/-- A concrete crypto collaborator for witness evaluation. -/
def cryptoTest : Crypto where
  pk_verify_chain := fun _ _ => true
  get_cert_fingerprint := fun c => c ++ "-fp"
  get_cert_subject := fun c => c ++ "-subj"
  get_cert_issuer := fun c => c ++ "-iss"
  get_cert_enddate := fun c => c ++ "-end"
  get_cert_issuerhash := fun c => c ++ "-ih"
  get_cert_subjecthash := fun c => c ++ "-sh"

/-- A concrete pem.parse_file collaborator for witness evaluation. -/
def parseFileTest : String → List String :=
  fun p => if p == "certs/alice.crt" then ["ALICECERT"] else []

/-- A concrete connector list_certificates collaborator for witness
evaluation. -/
def lcTest : String → String → List (String × List String) :=
  fun _ _ => [("zed", ["ZCERT"])]

/-- An empty store. -/
def dbEmpty : IdentityDB := ⟨"", []⟩

/-- An empty filesystem. -/
def fsEmpty : FS := ⟨[]⟩

/-! ### Association-list lemmas -/

theorem dictSet_lookup_self {α : Type} (k : String) (v : α) :
    ∀ m : List (String × α), (dictSet k v m).lookup k = some v
  | [] => by simp [dictSet, List.lookup_cons]
  | (a, b) :: rest => by
    by_cases h : a = k
    · simp [dictSet, h, List.lookup_cons]
    · have h1 : (a == k) = false := by simp [h]
      have h2 : (k == a) = false := by simp [Ne.symm h]
      simp only [dictSet, h1, Bool.false_eq_true, if_false, List.lookup_cons, h2]
      exact dictSet_lookup_self k v rest

theorem dictSet_lookup_other {α : Type} (k k' : String) (v : α) (h : k' ≠ k) :
    ∀ m : List (String × α), (dictSet k v m).lookup k' = m.lookup k'
  | [] => by
    have h2 : (k' == k) = false := by simp [h]
    simp [dictSet, List.lookup_cons, h2]
  | (a, b) :: rest => by
    by_cases hak : a = k
    · subst hak
      have h2 : (k' == a) = false := by simp [h]
      simp [dictSet, List.lookup_cons, h2]
    · have h1 : (a == k) = false := by simp [hak]
      simp only [dictSet, h1, Bool.false_eq_true, if_false, List.lookup_cons]
      by_cases h2 : k' = a
      · simp [h2]
      · have h3 : (k' == a) = false := by simp [h2]
        simp only [h3]
        exact dictSet_lookup_other k k' v h rest

theorem dictSet_keys_of_mem {α : Type} (k : String) (v : α) :
    ∀ m : List (String × α), (m.lookup k).isSome →
      (dictSet k v m).map Prod.fst = m.map Prod.fst
  | [], h => by simp [List.lookup] at h
  | (a, b) :: rest, h => by
    by_cases hak : a = k
    · subst hak; simp [dictSet]
    · have h1 : (a == k) = false := by simp [hak]
      have h2 : (k == a) = false := by simp [Ne.symm hak]
      rw [List.lookup_cons, h2] at h
      simp only [dictSet, h1, Bool.false_eq_true, if_false, List.map_cons]
      rw [dictSet_keys_of_mem k v rest h]

theorem dictSet_dictSet {α : Type} (k : String) (v w : α) :
    ∀ m : List (String × α), dictSet k v (dictSet k w m) = dictSet k v m
  | [] => by simp [dictSet]
  | (a, b) :: rest => by
    by_cases hak : a = k
    · subst hak; simp [dictSet]
    · have h1 : (a == k) = false := by simp [hak]
      simp only [dictSet, h1, Bool.false_eq_true, if_false]
      rw [dictSet_dictSet k v w rest]

theorem lookup_mem_keys {α : Type} (k : String) (r : α) :
    ∀ m : List (String × α), m.lookup k = some r → k ∈ m.map Prod.fst
  | [], h => by simp [List.lookup] at h
  | (a, b) :: rest, h => by
    by_cases hk : k = a
    · subst hk; exact List.mem_cons_self _ _
    · have h2 : (k == a) = false := by simp [hk]
      rw [List.lookup_cons, h2] at h
      exact List.mem_cons_of_mem _ (lookup_mem_keys k r rest h)

/-! ### Lemmas about verify_identity and the thread fan-out -/

theorem verify_identity_cabundle (crypto : Crypto) (pf : String → List String)
    (db : IdentityDB) (ident : String) :
    (verify_identity crypto pf db ident).1.cabundle = db.cabundle := by
  unfold verify_identity
  cases db.iddb.lookup ident <;> rfl

theorem verify_identity_lookup_other (crypto : Crypto) (pf : String → List String)
    (db : IdentityDB) (ident k : String) (h : k ≠ ident) :
    (verify_identity crypto pf db ident).1.iddb.lookup k = db.iddb.lookup k := by
  unfold verify_identity
  cases hl : db.iddb.lookup ident
  · rfl
  · simp only []
    exact dictSet_lookup_other ident k _ h db.iddb

theorem verify_identity_lookup_self (crypto : Crypto) (pf : String → List String)
    (db : IdentityDB) (ident : String) (r : Identity) (h : db.iddb.lookup ident = some r) :
    (verify_identity crypto pf db ident).1.iddb.lookup ident
      = some (verify_record crypto pf db.cabundle r).1 := by
  unfold verify_identity
  rw [h]
  simp only []
  exact dictSet_lookup_self ident _ db.iddb

theorem verify_fold_untouched (crypto : Crypto) (pf : String → List String)
    (ks : List String) (k : String) (hk : k ∉ ks) :
    ∀ d : IdentityDB,
      (ks.foldl (fun d i => (verify_identity crypto pf d i).1) d).iddb.lookup k
        = d.iddb.lookup k := by
  induction ks with
  | nil => intro d; rfl
  | cons k0 rest ih =>
    intro d
    have hk0 : k ≠ k0 := fun h => hk (h ▸ List.mem_cons_self k0 rest)
    have hkr : k ∉ rest := fun h => hk (List.mem_cons_of_mem _ h)
    simp only [List.foldl_cons]
    rw [ih hkr, verify_identity_lookup_other crypto pf d k0 k hk0]

theorem verify_fold_cabundle (crypto : Crypto) (pf : String → List String)
    (ks : List String) :
    ∀ d : IdentityDB,
      (ks.foldl (fun d i => (verify_identity crypto pf d i).1) d).cabundle = d.cabundle := by
  induction ks with
  | nil => intro d; rfl
  | cons k0 rest ih =>
    intro d
    simp only [List.foldl_cons]
    rw [ih, verify_identity_cabundle]

theorem verify_fold_spec (crypto : Crypto) (pf : String → List String)
    (ks : List String) :
    ∀ d : IdentityDB, ks.Nodup →
      ∀ k r, k ∈ ks → d.iddb.lookup k = some r →
        (ks.foldl (fun d i => (verify_identity crypto pf d i).1) d).iddb.lookup k
          = some (verify_record crypto pf d.cabundle r).1 := by
  induction ks with
  | nil => intro d _ k r hk; exact absurd hk (List.not_mem_nil k)
  | cons k0 rest ih =>
    intro d hnd k r hk hl
    have hnd' := List.nodup_cons.mp hnd
    simp only [List.foldl_cons]
    rcases List.mem_cons.mp hk with hk0 | hkr
    · subst hk0
      rw [verify_fold_untouched crypto pf rest k hnd'.1]
      exact verify_identity_lookup_self crypto pf d k r hl
    · have hne : k ≠ k0 := fun h => hnd'.1 (h ▸ hkr)
      have hl' : (verify_identity crypto pf d k0).1.iddb.lookup k = some r := by
        rw [verify_identity_lookup_other crypto pf d k0 k hne]; exact hl
      have hmain := ih (verify_identity crypto pf d k0).1 hnd'.2 k r hkr hl'
      rwa [verify_identity_cabundle] at hmain

/-! ### Lemmas about stripping -/

theorem dropWhile_head_not (p : Char → Bool) :
    ∀ (l : List Char) (c : Char) (rest : List Char),
      l.dropWhile p = c :: rest → p c = false := by
  intro l
  induction l with
  | nil => intro c rest h; cases h
  | cons x xs ih =>
    intro c rest h
    rw [List.dropWhile_cons] at h
    by_cases hx : p x = true
    · rw [if_pos hx] at h; exact ih c rest h
    · rw [if_neg hx] at h
      cases h
      simpa using hx

theorem pyStripList_no_edge (l : List Char) :
    (∀ c, (pyStripList l).head? = some c → Char.isWhitespace c = false)
    ∧ (∀ c, (pyStripList l).getLast? = some c → Char.isWhitespace c = false) := by
  constructor
  · intro c hc
    unfold pyStripList at hc
    rw [List.head?_reverse] at hc
    cases hbe : (l.dropWhile Char.isWhitespace).reverse.dropWhile Char.isWhitespace with
    | nil => rw [hbe] at hc; cases hc
    | cons x xs =>
      have hbne : (l.dropWhile Char.isWhitespace).reverse.dropWhile Char.isWhitespace ≠ [] := by
        rw [hbe]; simp
      have h1 := List.getLast?_append_of_ne_nil
        (List.takeWhile Char.isWhitespace (l.dropWhile Char.isWhitespace).reverse) hbne
      rw [List.takeWhile_append_dropWhile, List.getLast?_reverse] at h1
      rw [← h1] at hc
      cases hae : l.dropWhile Char.isWhitespace with
      | nil => rw [hae] at hc; cases hc
      | cons y ys =>
        rw [hae] at hc
        have hyc : y = c := by simpa using hc
        subst hyc
        exact dropWhile_head_not _ l y ys hae
  · intro c hc
    unfold pyStripList at hc
    rw [List.getLast?_reverse] at hc
    cases hbe : (l.dropWhile Char.isWhitespace).reverse.dropWhile Char.isWhitespace with
    | nil => rw [hbe] at hc; cases hc
    | cons x xs =>
      rw [hbe] at hc
      have hxc : x = c := by simpa using hc
      subst hxc
      exact dropWhile_head_not _ _ x xs hbe

theorem no_edge_whitespace_pyStrip (s : String) :
    no_edge_whitespace (pyStrip s) = true := by
  have h := pyStripList_no_edge s.data
  have hdata : (pyStrip s).data = pyStripList s.data := rfl
  unfold no_edge_whitespace
  rw [hdata]
  cases h1 : (pyStripList s.data).head? with
  | none =>
    cases h2 : (pyStripList s.data).getLast? with
    | none => rfl
    | some c => simp [h.2 c h2]
  | some c =>
    cases h2 : (pyStripList s.data).getLast? with
    | none => simp [h.1 c h1]
    | some c2 => simp [h.1 c h1, h.2 c2 h2]

/-! ### Concrete fixtures for witnesses and counterexamples -/

/-- A record holding only a certificate path, as loaded from certs. -/
def recAlice : Identity := { uid := "alice", certificate_path := some "certs/alice.crt" }

/-- A record holding only a key path and no certificate path. -/
def recCarol : Identity := { uid := "carol", key_path := some "private/carol.key" }

/-- A store with one verifiable identity. -/
def dbAlice : IdentityDB := ⟨"ca", [("alice", recAlice)]⟩

/-- A store with one identity that lacks a certificate path, so its
verification fails. -/
def dbCarol : IdentityDB := ⟨"ca-bundle", [("carol", recCarol)]⟩

/-- A store mixing a verifiable identity and a failing one. -/
def dbMix : IdentityDB := ⟨"ca", [("alice", recAlice), ("carol", recCarol)]⟩

/-- A directory holding a.crt, b.cert and c.key, the example of the spec. -/
def fsABC : FS := ⟨[("certdir", ["a.crt", "b.cert", "c.key"])]⟩

/-- The store obtained by loading certdir as certificate directory and
then as key directory. -/
def dbABC : IdentityDB :=
  (load_keys_from_directory fsABC "certdir"
    (load_certs_from_directory cryptoTest parseFileTest lcTest dbEmpty fsABC (some "certdir")
      false none false "/tmp").1).1

/-- A directory holding a certificate file whose base name contains a dot. -/
def fsDotted : FS := ⟨[("certs", ["a.b.crt"])]⟩

/-- A filesystem whose connector cache directory already holds an entry. -/
def fsCache : FS := ⟨[("/tmp/conn", ["cached.crt"])]⟩

deriving instance DecidableEq for Except

/-! ### Claims -/

/-- C2 (code bug): the frozen source cannot execute the claimed
validation.  The call at command.py line 262 omits the required results
argument of verify_identity, so _validate_identities raises the arity
TypeError for EVERY non-empty recipient list - at the first recipient,
present in the store or not - and the unknown-recipient CliArgumentError
path and the operator check are never reached; command execution is still
aborted by the raise.  The operator check, with its Your-user
CliArgumentError, is reachable only with an empty recipient list.  The
closed conjuncts evaluate the failing input: the store contains alice,
the recipient list is exactly the present recipient alice, and validation
still raises the TypeError instead of passing. -/
theorem C2_validator_arity_bug :
    (∀ (db : IdentityDB) (r : String) (rest : List String) (opId : String),
       _validate_identities db (r :: rest) opId
         = (db, some (PkErr.typeError verifyIdentityArityMsg))
       ∧ (command_run db (r :: rest) opId).2 = false)
    ∧ (∀ (db : IdentityDB) (opId : String),
       _validate_identities db [] opId
         = (db, if (db.iddb.lookup opId).isSome then none
                else some (PkErr.cliArgumentError (userNotInDbMsg opId))))
    ∧ (dbAlice.iddb.lookup "alice").isSome = true
    ∧ _validate_identities dbAlice ["alice"] "alice"
        = (dbAlice, some (PkErr.typeError verifyIdentityArityMsg)) := by
  refine ⟨?_, ?_, by decide, by decide⟩
  · intro db r rest opId
    exact ⟨rfl, rfl⟩
  · intro db opId
    unfold _validate_identities _validate_recipients_loop
    by_cases hop : (db.iddb.lookup opId).isSome = true
    · simp [hop]
    · simp [hop]

/-- C4: whenever some resolved, deduplicated and stripped recipient entry
is the empty string, _build_recipient_list fails with NullRecipientError. -/
theorem C4_null_recipient (escrow_users : List String) (groups users : Option String)
    (config : String → Option String) (raw : List String)
    (hraw : raw_recipient_entries escrow_users groups users config = Except.ok raw)
    (hmem : "" ∈ resolved_recipients raw) :
    _build_recipient_list escrow_users groups users config
      = Except.error PkErr.nullRecipientError := by
  unfold _build_recipient_list
  rw [hraw]
  simp [hmem]

/-- C4 witness: the configuration users equal to a bare comma resolves to
an entry list containing the empty string and fails with
NullRecipientError. -/
theorem C4_null_recipient_witness :
    raw_recipient_entries [] none (some ",") (fun _ => none) = Except.ok ["", ""]
    ∧ "" ∈ resolved_recipients ["", ""]
    ∧ _build_recipient_list [] none (some ",") (fun _ => none)
        = Except.error PkErr.nullRecipientError := by
  refine ⟨by decide, by decide, ?_⟩
  exact C4_null_recipient [] none (some ",") (fun _ => none) ["", ""] (by decide) (by decide)

/-- C5: group expansion - every group name is stripped and looked up as a
configuration key, and when all groups are configured the loop returns all
their comma-split members in order; a group whose (stripped) name is not a
configuration key makes the loop fail with GroupDefinitionError at a
missing key; and the spec example groups team1 with team1 dave,erin
resolves to dave and erin. -/
theorem C5_group_expansion :
    (∀ (config : String → Option String) (gs : List String),
       (∀ g ∈ gs, (config (pyStrip g)).isSome) →
       parse_groups_list config gs
         = Except.ok (gs.foldr
             (fun g acc => pySplit ',' ((config (pyStrip g)).getD "") ++ acc) []))
    ∧ (∀ (config : String → Option String) (gs : List String) (g : String),
       g ∈ gs → config (pyStrip g) = none →
       ∃ k, parse_groups_list config gs = Except.error (PkErr.groupDefinitionError k)
            ∧ config k = none)
    ∧ (_build_recipient_list [] (some "team1") none
         (fun k => if k == "team1" then some "dave,erin" else none)
         = Except.ok ["dave", "erin"]) := by
  refine ⟨?_, ?_, by decide⟩
  · intro config gs
    induction gs with
    | nil => intro _; rfl
    | cons g rest ih =>
      intro hall
      have hg := hall g (List.mem_cons_self _ _)
      cases hcg : config (pyStrip g) with
      | none => rw [hcg] at hg; cases hg
      | some members =>
        have hrest := ih (fun x hx => hall x (List.mem_cons_of_mem _ hx))
        simp only [parse_groups_list, hcg, hrest, List.foldr_cons, Option.getD_some]
  · intro config gs
    induction gs with
    | nil => intro g hg; cases hg
    | cons g0 rest ih =>
      intro g hg hcg
      cases hc0 : config (pyStrip g0) with
      | none =>
        exact ⟨pyStrip g0, by simp [parse_groups_list, hc0], hc0⟩
      | some members =>
        have hne : g ≠ g0 := by
          intro he; subst he; rw [hcg] at hc0; cases hc0
        have hgr : g ∈ rest := by
          rcases List.mem_cons.mp hg with h | h
          · exact absurd h hne
          · exact h
        obtain ⟨k, hk, hkc⟩ := ih g hgr hcg
        refine ⟨k, ?_, hkc⟩
        simp [parse_groups_list, hc0, hk]

/-- C5 witness: with team1 configured as dave,erin the loop expands to
dave and erin, and with an unconfigured group missing it fails with
GroupDefinitionError. -/
theorem C5_group_expansion_witness :
    ((∀ g ∈ (["team1"] : List String),
        (((fun k => if k == "team1" then some "dave,erin" else none) : String → Option String)
          (pyStrip g)).isSome)
     ∧ parse_groups_list (fun k => if k == "team1" then some "dave,erin" else none) ["team1"]
         = Except.ok ["dave", "erin"])
    ∧ (∃ k, parse_groups_list (fun _ => (none : Option String)) ["missing"]
              = Except.error (PkErr.groupDefinitionError k)
            ∧ (fun _ => (none : Option String)) k = none) := by
  constructor
  · constructor
    · decide
    · have h := C5_group_expansion.1
        (fun k => if k == "team1" then some "dave,erin" else none) ["team1"] (by decide)
      simpa using h
  · exact C5_group_expansion.2.1 (fun _ => none) ["missing"] "missing"
      (by decide) (by decide)

/-- C3 counterexample: the configuration users bob-comma-space-bob
resolves to the list bob, bob - the same name twice - because the source
deduplicates the raw entries before stripping them, so the claim that no
name occurs twice in the result is false. -/
theorem C3_counterexample :
    _build_recipient_list [] none (some "bob, bob") (fun _ => none)
      = Except.ok ["bob", "bob"]
    ∧ ¬ (["bob", "bob"] : List String).Nodup := by
  exact ⟨by decide, by decide⟩

/-- C3 (amended): every produced entry is stripped of leading and trailing
whitespace, and the produced list is exactly the raw entries deduplicated
with set semantics on the raw (untrimmed) strings and then stripped; hence
no name occurs twice provided no two distinct raw entries share the same
stripped form (two raw entries differing only in surrounding whitespace
survive deduplication and yield the same name twice). -/
theorem C3_trim_dedup (escrow_users : List String) (groups users : Option String)
    (config : String → Option String) (raw l : List String)
    (hraw : raw_recipient_entries escrow_users groups users config = Except.ok raw)
    (hok : _build_recipient_list escrow_users groups users config = Except.ok l) :
    (∀ x ∈ l, no_edge_whitespace x = true)
    ∧ l = raw.dedup.map pyStrip
    ∧ ((∀ a ∈ raw, ∀ b ∈ raw, pyStrip a = pyStrip b → a = b) → l.Nodup) := by
  unfold _build_recipient_list at hok
  rw [hraw] at hok
  by_cases hmem : "" ∈ resolved_recipients raw
  · simp [hmem] at hok
  · simp only [hmem, if_neg, if_false] at hok
    have hl : l = raw.dedup.map pyStrip := by
      have := hok
      simp at this
      exact this.symm
    subst hl
    refine ⟨?_, rfl, ?_⟩
    · intro x hx
      obtain ⟨y, -, hy⟩ := List.mem_map.mp hx
      rw [← hy]
      exact no_edge_whitespace_pyStrip y
    · intro hinj
      refine List.Nodup.map_on ?_ (List.nodup_dedup raw)
      intro a ha b hb hab
      exact hinj a (List.mem_dedup.mp ha) b (List.mem_dedup.mp hb) hab

/-- C3 witness: for escrow carol and users bob-comma-space-alice the raw
entries are carol, bob and space-alice, and the produced list is carol,
bob, alice - trimmed and, here, duplicate-free. -/
theorem C3_trim_dedup_witness :
    raw_recipient_entries ["carol"] none (some "bob, alice") (fun _ => none)
      = Except.ok ["carol", "bob", " alice"]
    ∧ _build_recipient_list ["carol"] none (some "bob, alice") (fun _ => none)
      = Except.ok ["carol", "bob", "alice"]
    ∧ ((∀ x ∈ (["carol", "bob", "alice"] : List String), no_edge_whitespace x = true)
       ∧ (["carol", "bob", "alice"] : List String)
           = (["carol", "bob", " alice"] : List String).dedup.map pyStrip
       ∧ ((∀ a ∈ (["carol", "bob", " alice"] : List String),
           ∀ b ∈ (["carol", "bob", " alice"] : List String),
             pyStrip a = pyStrip b → a = b)
          → (["carol", "bob", "alice"] : List String).Nodup)) := by
  refine ⟨by decide, by decide, ?_⟩
  exact C3_trim_dedup ["carol"] none (some "bob, alice") (fun _ => none)
    ["carol", "bob", " alice"] ["carol", "bob", "alice"] (by decide) (by decide)

/-- C1 counterexample: with a store whose only identity lacks a
certificate path, verify_identity raises the recipient CliArgumentError,
yet load_certs_from_directory with verify_on_load returns no error - the
worker thread swallows the failure, so the claim that the first error is
reported to the caller is false. -/
theorem C1_counterexample :
    (verify_identity cryptoTest parseFileTest dbCarol "carol").2
      = some (PkErr.cliArgumentError (recipientNotInDbMsg "carol"))
    ∧ (load_certs_from_directory cryptoTest parseFileTest lcTest dbCarol fsEmpty
        none true none false "/tmp").2.2 = none := by
  exact ⟨by decide, by decide⟩

/-- C1 (amended): with verify_on_load, load_certs_from_directory runs
verify_identity for every identity currently in the store and joins all
workers before returning - every identity record ends up exactly as its
own verification leaves it, so no failure short-circuits the others - but
verification errors are swallowed by the worker threads and the call
always returns without error. -/
theorem C1_verify_all_swallows (crypto : Crypto) (pf : String → List String)
    (lc : String → String → List (String × List String))
    (db : IdentityDB) (fs : FS) (gettempdir : String)
    (hnd : (db.iddb.map Prod.fst).Nodup) :
    (load_certs_from_directory crypto pf lc db fs none true none false gettempdir).2.2 = none
    ∧ ∀ k r, db.iddb.lookup k = some r →
        (load_certs_from_directory crypto pf lc db fs none true none false
          gettempdir).1.iddb.lookup k
          = some (verify_record crypto pf db.cabundle r).1 := by
  have hload : load_certs_from_directory crypto pf lc db fs none true none false gettempdir
      = (verify_all_threads crypto pf db, fs, none) := rfl
  rw [hload]
  refine ⟨rfl, ?_⟩
  intro k r hl
  have hmem := lookup_mem_keys k r db.iddb hl
  exact verify_fold_spec crypto pf (db.iddb.map Prod.fst) db hnd k r hmem hl

/-- C1 witness: on a store mixing a verifiable identity and one whose
verification fails, the verify_on_load path still reports no error. -/
theorem C1_verify_all_swallows_witness :
    (dbMix.iddb.map Prod.fst).Nodup
    ∧ (load_certs_from_directory cryptoTest parseFileTest lcTest dbMix fsEmpty
        none true none false "/tmp").2.2 = none := by
  refine ⟨by decide, ?_⟩
  exact (C1_verify_all_swallows cryptoTest parseFileTest lcTest dbMix fsEmpty "/tmp"
    (by decide)).1

/-- C6 counterexample: loading a directory holding a.b.crt produces the
identity keyed a - the part of the file name before the FIRST dot - and no
identity keyed a.b, which the extension-stripped name would give, so the
claim that the uid is the filename with its extension stripped is false. -/
theorem C6_counterexample :
    (_load_from_directory fsDotted "certs" "certificate" dbEmpty).1.iddb.lookup "a.b" = none
    ∧ (_load_from_directory fsDotted "certs" "certificate" dbEmpty).1.iddb.lookup "a"
        = some { uid := "a", certificate_path := some "certs/a.b.crt" } := by
  exact ⟨by decide, by decide⟩

/-- C6 (amended): each directory entry whose name ends with a known
extension of the requested artifact type produces or updates exactly one
identity, keyed by the portion of the file name before its first dot
(equal to the extension-stripped name for base names without inner dots):
the record for that key receives the artifact path (kept fields if it
existed, a fresh record otherwise) and every other key is untouched; and
the spec example a.crt, b.cert, c.key yields exactly identities a and b
with certificate paths and c with only a key path. -/
theorem C6_directory_upsert :
    (∀ (path ftype : String) (iddb : List (String × Identity)) (fname : String),
       matches_ext fname ftype = true →
       (((process_file path ftype iddb fname).lookup (uid_of fname)).isSome = true)
       ∧ (∀ r, iddb.lookup (uid_of fname) = some r →
            process_file path ftype iddb fname
              = dictSet (uid_of fname) (set_type_path ftype r (path_join path fname)) iddb)
       ∧ (iddb.lookup (uid_of fname) = none →
            process_file path ftype iddb fname
              = dictSet (uid_of fname)
                  (set_type_path ftype (new_identity (uid_of fname)) (path_join path fname))
                  iddb)
       ∧ (∀ u, u ≠ uid_of fname →
            (process_file path ftype iddb fname).lookup u = iddb.lookup u))
    ∧ dbABC.iddb = [("a", { uid := "a", certificate_path := some "certdir/a.crt" }),
                    ("b", { uid := "b", certificate_path := some "certdir/b.cert" }),
                    ("c", { uid := "c", key_path := some "certdir/c.key" })] := by
  refine ⟨?_, by decide⟩
  intro path ftype iddb fname hm
  cases hl : iddb.lookup (uid_of fname) with
  | some r =>
    have heq : process_file path ftype iddb fname
        = dictSet (uid_of fname) (set_type_path ftype r (path_join path fname)) iddb := by
      simp [process_file, hm, hl]
    refine ⟨?_, ?_, ?_, ?_⟩
    · rw [heq, dictSet_lookup_self]; rfl
    · intro r' hr'
      injection hr' with h
      rw [← h]
      exact heq
    · intro hnone; cases hnone
    · intro u hu; rw [heq]; exact dictSet_lookup_other _ u _ hu iddb
  | none =>
    have heq : process_file path ftype iddb fname
        = dictSet (uid_of fname)
            (set_type_path ftype (new_identity (uid_of fname)) (path_join path fname)) iddb := by
      simp [process_file, hm, hl]
    refine ⟨?_, ?_, ?_, ?_⟩
    · rw [heq, dictSet_lookup_self]; rfl
    · intro r' hr'; cases hr'
    · intro _; exact heq
    · intro u hu; rw [heq]; exact dictSet_lookup_other _ u _ hu iddb

/-- C6 witness: the dotted file a.b.crt matches the certificate
extensions and its single upsert is visible under the key a. -/
theorem C6_directory_upsert_witness :
    matches_ext "a.b.crt" "certificate" = true
    ∧ (((process_file "certs" "certificate" [] "a.b.crt").lookup
         (uid_of "a.b.crt")).isSome = true) := by
  refine ⟨by decide, ?_⟩
  exact (C6_directory_upsert.1 "certs" "certificate" [] "a.b.crt" (by decide)).1

/-- C7: upserting a second file for an existing uid and artifact type
rewrites only that artifact path on the existing record - the rest of the
record (in particular the other artifact path, so key and certificate
paths accumulate) is preserved, every other identity is untouched, and
the key list of the store mapping is unchanged, keeping uid a unique key. -/
theorem C7_upsert_preserves (path fname ftype : String)
    (iddb : List (String × Identity)) (r : Identity)
    (hm : matches_ext fname ftype = true)
    (hl : iddb.lookup (uid_of fname) = some r) :
    ((process_file path ftype iddb fname).lookup (uid_of fname)
        = some (set_type_path ftype r (path_join path fname)))
    ∧ (ftype = "certificate" →
        set_type_path ftype r (path_join path fname)
          = { r with certificate_path := some (path_join path fname) })
    ∧ (ftype = "key" →
        set_type_path ftype r (path_join path fname)
          = { r with key_path := some (path_join path fname) })
    ∧ (∀ u, u ≠ uid_of fname →
        (process_file path ftype iddb fname).lookup u = iddb.lookup u)
    ∧ (process_file path ftype iddb fname).map Prod.fst = iddb.map Prod.fst := by
  have heq : process_file path ftype iddb fname
      = dictSet (uid_of fname) (set_type_path ftype r (path_join path fname)) iddb := by
    simp [process_file, hm, hl]
  refine ⟨?_, ?_, ?_, ?_, ?_⟩
  · rw [heq]; exact dictSet_lookup_self _ _ iddb
  · intro h; subst h; rfl
  · intro h; subst h; rfl
  · intro u hu; rw [heq]; exact dictSet_lookup_other _ u _ hu iddb
  · rw [heq]
    exact dictSet_keys_of_mem _ _ iddb (by rw [hl]; rfl)

/-- A record holding only a key path, target of the C7 witness upsert. -/
def recC2 : Identity := { uid := "c2", key_path := some "private/c2.key" }

/-- C7 witness: loading c2.crt over a record that already holds a key
path sets the certificate path and keeps the key path. -/
theorem C7_upsert_preserves_witness :
    matches_ext "c2.crt" "certificate" = true
    ∧ ([("c2", recC2)] : List (String × Identity)).lookup (uid_of "c2.crt") = some recC2
    ∧ (process_file "certs" "certificate" [("c2", recC2)] "c2.crt").lookup (uid_of "c2.crt")
        = some (set_type_path "certificate" recC2 (path_join "certs" "c2.crt"))
    ∧ set_type_path "certificate" recC2 (path_join "certs" "c2.crt")
        = { recC2 with certificate_path := some (path_join "certs" "c2.crt") } := by
  have h := C7_upsert_preserves "certs" "c2.crt" "certificate" [("c2", recC2)] recC2
    (by decide) (by decide)
  exact ⟨by decide, by decide, h.1, h.2.1 rfl⟩

/-- C8: verifying an identity that is present with a certificate path
succeeds, and verifying it a second time against the unchanged file and
trust anchor returns exactly the store produced by the first call - the
certs sequence is recomputed and replaced, not appended to. -/
theorem C8_verify_idempotent (crypto : Crypto) (pf : String → List String)
    (db : IdentityDB) (ident : String) (r : Identity) (p : String)
    (hl : db.iddb.lookup ident = some r) (hcp : r.certificate_path = some p) :
    (verify_identity crypto pf db ident).2 = none
    ∧ verify_identity crypto pf (verify_identity crypto pf db ident).1 ident
        = ((verify_identity crypto pf db ident).1, none) := by
  have hvr : verify_record crypto pf db.cabundle r = ({ r with cabundle := some db.cabundle, certs := some ((pf p).map (mkCertDict crypto db.cabundle)) }, true) := by
    simp [verify_record, hcp]
  have hv1 : verify_identity crypto pf db ident = ({ db with iddb := dictSet ident { r with cabundle := some db.cabundle, certs := some ((pf p).map (mkCertDict crypto db.cabundle)) } db.iddb }, none) := by
    simp [verify_identity, hl, hvr]
  refine ⟨by rw [hv1], ?_⟩
  rw [hv1]
  have hl2 : (dictSet ident { r with cabundle := some db.cabundle, certs := some ((pf p).map (mkCertDict crypto db.cabundle)) } db.iddb).lookup ident = some { r with cabundle := some db.cabundle, certs := some ((pf p).map (mkCertDict crypto db.cabundle)) } :=
    dictSet_lookup_self _ _ _
  have hvr2 : verify_record crypto pf db.cabundle { r with cabundle := some db.cabundle, certs := some ((pf p).map (mkCertDict crypto db.cabundle)) } = ({ r with cabundle := some db.cabundle, certs := some ((pf p).map (mkCertDict crypto db.cabundle)) }, true) := by
    simp [verify_record, hcp]
  have hstep : verify_identity crypto pf { db with iddb := dictSet ident { r with cabundle := some db.cabundle, certs := some ((pf p).map (mkCertDict crypto db.cabundle)) } db.iddb } ident = ({ db with iddb := dictSet ident { r with cabundle := some db.cabundle, certs := some ((pf p).map (mkCertDict crypto db.cabundle)) } (dictSet ident { r with cabundle := some db.cabundle, certs := some ((pf p).map (mkCertDict crypto db.cabundle)) } db.iddb) }, none) := by
    simp [verify_identity, hl2, hvr2]
  rw [hstep, dictSet_dictSet]

/-- C8 witness: verifying alice twice on an unchanged certificate file
yields the same store and no error both times. -/
theorem C8_verify_idempotent_witness :
    dbAlice.iddb.lookup "alice" = some recAlice
    ∧ recAlice.certificate_path = some "certs/alice.crt"
    ∧ (verify_identity cryptoTest parseFileTest dbAlice "alice").2 = none
    ∧ verify_identity cryptoTest parseFileTest
        (verify_identity cryptoTest parseFileTest dbAlice "alice").1 "alice"
        = ((verify_identity cryptoTest parseFileTest dbAlice "alice").1, none) := by
  have h := C8_verify_idempotent cryptoTest parseFileTest dbAlice "alice" recAlice
    "certs/alice.crt" (by decide) (by decide)
  exact ⟨by decide, by decide, h.1, h.2⟩

/-- C9: in the connector loop, the trace of invoked connectors grows by
the entry exactly when the no-cache override is set or the (possibly just
created) cache directory is empty; otherwise the connector is not invoked
and the cache directory is loaded directly as a local certificate
directory, with the filesystem left as the mere directory-existence check
produced it. -/
theorem C9_connector_cache (lc : String → String → List (String × List String))
    (nocache : Bool) (temp_dir : String) (db : IdentityDB) (fs : FS)
    (trace : List String) (kv : String × String) :
    ((_external_entry_step lc nocache temp_dir (db, fs, trace, none) kv).2.2.1
       = (if nocache || cache_is_empty (ensure_dir fs (path_join temp_dir kv.1))
              (path_join temp_dir kv.1)
          then trace ++ [kv.1] else trace))
    ∧ ((nocache || cache_is_empty (ensure_dir fs (path_join temp_dir kv.1))
          (path_join temp_dir kv.1)) = false →
        _external_entry_step lc nocache temp_dir (db, fs, trace, none) kv
          = ((_load_from_directory (ensure_dir fs (path_join temp_dir kv.1))
                (path_join temp_dir kv.1) "certificate" db).1,
             ensure_dir fs (path_join temp_dir kv.1), trace,
             (_load_from_directory (ensure_dir fs (path_join temp_dir kv.1))
                (path_join temp_dir kv.1) "certificate" db).2)) := by
  constructor
  · by_cases hc : (nocache || cache_is_empty (ensure_dir fs (path_join temp_dir kv.1))
        (path_join temp_dir kv.1)) = true
    · simp [_external_entry_step, hc]
    · simp [_external_entry_step, hc]
  · intro hc
    simp [_external_entry_step, hc]

/-- C9 witness: with a non-empty cache directory and no-cache off, the
step invokes nothing and loads the cached files directly. -/
theorem C9_connector_cache_witness :
    (false || cache_is_empty (ensure_dir fsCache (path_join "/tmp" "conn"))
       (path_join "/tmp" "conn")) = false
    ∧ _external_entry_step lcTest false "/tmp" (dbEmpty, fsCache, [], none) ("conn", "url")
        = ((_load_from_directory (ensure_dir fsCache (path_join "/tmp" "conn"))
              (path_join "/tmp" "conn") "certificate" dbEmpty).1,
           ensure_dir fsCache (path_join "/tmp" "conn"), [],
           (_load_from_directory (ensure_dir fsCache (path_join "/tmp" "conn"))
              (path_join "/tmp" "conn") "certificate" dbEmpty).2) := by
  refine ⟨by decide, ?_⟩
  exact (C9_connector_cache lcTest false "/tmp" dbEmpty fsCache [] ("conn", "url")).2
    (by decide)

/-- C10: verifying an identity that is present but lacks a certificate
path fails with the recipient CliArgumentError, yet the store is mutated
before the raise - the record now carries the store trust anchor and an
empty certs sequence - so whenever the record did not already hold exactly
those values the store after the error differs from the store before. -/
theorem C10_partial_mutation (crypto : Crypto) (pf : String → List String)
    (db : IdentityDB) (ident : String) (r : Identity)
    (hl : db.iddb.lookup ident = some r) (hcp : r.certificate_path = none) :
    (verify_identity crypto pf db ident).2
      = some (PkErr.cliArgumentError (recipientNotInDbMsg ident))
    ∧ (verify_identity crypto pf db ident).1.iddb.lookup ident
      = some { r with cabundle := some db.cabundle, certs := some ([] : List CertRecord) }
    ∧ ((r.cabundle ≠ some db.cabundle ∨ r.certs ≠ some ([] : List CertRecord)) →
        (verify_identity crypto pf db ident).1 ≠ db) := by
  have hvr : verify_record crypto pf db.cabundle r = ({ r with cabundle := some db.cabundle, certs := some ([] : List CertRecord) }, false) := by
    simp [verify_record, hcp]
  have hv : verify_identity crypto pf db ident = ({ db with iddb := dictSet ident { r with cabundle := some db.cabundle, certs := some ([] : List CertRecord) } db.iddb }, some (PkErr.cliArgumentError (recipientNotInDbMsg ident))) := by
    simp [verify_identity, hl, hvr]
  refine ⟨by rw [hv], ?_, ?_⟩
  · rw [hv]; exact dictSet_lookup_self _ _ _
  · intro hdiff heq
    have h1 : (verify_identity crypto pf db ident).1.iddb.lookup ident = some { r with cabundle := some db.cabundle, certs := some ([] : List CertRecord) } := by
      rw [hv]; exact dictSet_lookup_self _ _ _
    rw [heq, hl] at h1
    have h2 := Option.some.inj h1
    rcases hdiff with hd | hd
    · exact hd (congrArg Identity.cabundle h2)
    · exact hd (congrArg Identity.certs h2)

/-- C10 witness: on the carol store the failed verification leaves a
store that differs from the original. -/
theorem C10_partial_mutation_witness :
    dbCarol.iddb.lookup "carol" = some recCarol
    ∧ recCarol.certificate_path = none
    ∧ (recCarol.cabundle ≠ some dbCarol.cabundle
       ∨ recCarol.certs ≠ some ([] : List CertRecord))
    ∧ (verify_identity cryptoTest parseFileTest dbCarol "carol").2
        = some (PkErr.cliArgumentError (recipientNotInDbMsg "carol"))
    ∧ (verify_identity cryptoTest parseFileTest dbCarol "carol").1 ≠ dbCarol := by
  have hdiff : recCarol.cabundle ≠ some dbCarol.cabundle
      ∨ recCarol.certs ≠ some ([] : List CertRecord) := by
    left; decide
  have h := C10_partial_mutation cryptoTest parseFileTest dbCarol "carol" recCarol
    (by decide) (by decide)
  exact ⟨by decide, by decide, hdiff, h.1, h.2.2 hdiff⟩

end Pkpass
